import Mathlib

/-!
# Verification of the warehouse-control authentication / authorization / audit core

Shallow embedding of the Go sources of `aliskhannn/warehouse-control`:

* `internal/middleware/auth.go` — `Auth`, `RequireRole`, `validateToken`;
* `internal/service/user` — `Register`, `Login`, `hashPassword`,
  `verifyPassword`, `generateToken`;
* `internal/repository/user` — in-memory model of the `users` table;
* `internal/api/handler/auth` — `Handler.Register`, `Handler.Login`;
* `internal/service/item` and `internal/repository/item` — the mutating item
  operations and the `SetCurrentUser` audit hook, modelled as a command trace
  toward the database session.

Cryptography (HMAC signatures, bcrypt hashes) is modelled symbolically
(Dolev–Yao style): a signature is a term determined by algorithm, key and
payload, and two signatures are equal exactly when those coincide; a bcrypt
hash remembers the hashed password and its salt, and verification compares
the password. Clock readings are natural numbers in milliseconds; `Unix()`
truncates to seconds by dividing by 1000 (an abstraction of Go's
nanosecond-resolution `time.Time`).
-/

namespace Warehouse

/-- `uuid.UUID` from github.com/google/uuid, abstracted to a tag. -/
structure UUID where
  val : Nat
deriving DecidableEq, Repr

/-- `uuid.Nil`, the zero UUID returned on every error path. -/
def UUID.nil : UUID := ⟨0⟩

/-- A Go string as it can occur inside token claims: either the canonical
textual form of a UUID (as produced by `uuid.UUID.String()`, which is
injective), or any other string. `uuid.Parse` succeeds exactly on the
first kind and recovers the UUID. -/
inductive GoStr
  | uuidStr (u : UUID)
  | plain (s : String)
deriving DecidableEq, Repr

/-- `uuid.Parse`: inverts `UUID.String()`, fails on any other string. -/
def uuidParse : GoStr → Option UUID
  | .uuidStr u => some u
  | .plain _ => none

/-- A JSON claim value as stored in `jwt.MapClaims` (`map[string]interface{}`). -/
inductive JVal
  | str (s : GoStr)
  | num (n : Int)
  | boolean (b : Bool)
  | null
deriving DecidableEq, Repr

/-- `jwt.MapClaims`: an association list with unique keys; `lookup` is map access. -/
abbrev Claims := List (String × JVal)

/-- The sentinel and wrapped errors that flow through the subsystem.
`wrap` models `fmt.Errorf("...: %w", err)`; `join` models the
multi-target errors built by `golang-jwt/v5`'s `newError`. -/
inductive GoErr
  | noToken
  | invalidToken
  | invalidTokenFormat
  | expiredToken
  | roleNotFound
  | invalidRole
  | accessDenied
  | userAlreadyExists
  | invalidCredentials
  | userNotFound
  | itemNotFound
  | jwtMalformed
  | jwtSignatureInvalid
  | jwtUnverifiable
  | jwtInvalidClaims
  | jwtExpired
  | wrap (msg : String) (inner : GoErr)
  | join (a b : GoErr)
  | errmsg (s : String)
deriving DecidableEq, Repr

/-- `errors.Is(e, target)` for sentinel targets: unwrap `%w` chains and joined
errors. -/
def errIs (e target : GoErr) : Bool :=
  e == target ||
    match e with
    | .wrap _ inner => errIs inner target
    | .join a b => errIs a target || errIs b target
    | _ => false

/-- JWT signing algorithms relevant to the attack surface. -/
inductive Alg
  | HS256
  | HS384
  | HS512
  | none
  | RS256
deriving DecidableEq, Repr

/-- `token.Method.(*jwt.SigningMethodHMAC)` succeeds exactly for the HS family. -/
def Alg.isHMAC : Alg → Bool
  | .HS256 | .HS384 | .HS512 => true
  | _ => false

/-- A symbolic MAC value: HMAC is modelled as a perfect MAC, so the signature
term records exactly the algorithm, key and signed payload, and two
signatures coincide iff all three do. -/
structure Sig where
  alg : Alg
  key : String
  payload : Claims
deriving DecidableEq, Repr

/-- Computing the MAC of serialized claims under `alg` with `key`. -/
def hmacSign (alg : Alg) (key : String) (payload : Claims) : Sig :=
  ⟨alg, key, payload⟩

/-- A structurally well-formed JWT: header algorithm, claims, signature. -/
structure Token where
  alg : Alg
  claims : Claims
  sig : Sig
deriving DecidableEq, Repr

/-- A raw token string: either it decodes to a structurally well-formed JWT
or it is garbage that fails base64/JSON decoding. -/
inductive RawToken
  | valid (t : Token)
  | garbage (s : String)
deriving DecidableEq, Repr

/-- The `exp` claim as read by `MapClaims.GetExpirationTime`: present and
numeric, present with a wrong type, or absent. -/
def getExp (claims : Claims) : Option JVal := claims.lookup "exp"

/-- `jwt.Parse` from golang-jwt/v5 with the keyfunc of `validateToken`:
reject non-HMAC methods (keyfunc returns `ErrInvalidToken`, which v5 wraps
with `ErrTokenUnverifiable`), verify the signature against the server
secret, then run the default claims validator, which reports an expired
`exp` as `ErrTokenInvalidClaims` joined with `ErrTokenExpired`.
`now` is Unix seconds. -/
def jwtParse (now : Int) (secret : String) (raw : RawToken) : Except GoErr Token :=
  match raw with
  | .garbage _ => .error .jwtMalformed
  | .valid t =>
    if ¬ t.alg.isHMAC then
      .error (.join .jwtUnverifiable .invalidToken)
    else if t.sig ≠ hmacSign t.alg secret t.claims then
      .error .jwtSignatureInvalid
    else
      match getExp t.claims with
      | some (.num e) =>
        if e ≤ now then .error (.join .jwtInvalidClaims .jwtExpired)
        else .ok t
      | some _ => .error (.join .jwtInvalidClaims (.errmsg "invalid type for claim"))
      | none => .ok t

/-- `validateToken` from `internal/middleware/auth.go`: parse and verify the
token, map an expiry failure to `ErrExpiredToken`, pass any other parse
error through, then extract and type-check the `user_id` and `role`
claims, failing with `ErrInvalidToken` and zero values otherwise.
Returns the Go triple `(uuid.UUID, string, error)`. -/
def validateToken (now : Int) (tokenStr : RawToken) (secret : String) :
    UUID × GoStr × Option GoErr :=
  match jwtParse now secret tokenStr with
  | .error err =>
    if errIs err .jwtExpired then (UUID.nil, .plain "", some .expiredToken)
    else (UUID.nil, .plain "", some err)
  | .ok token =>
    match token.claims.lookup "user_id" with
    | some (.str userIDStr) =>
      match uuidParse userIDStr with
      | some userID =>
        match token.claims.lookup "role" with
        | some (.str role) => (userID, role, Option.none)
        | _ => (UUID.nil, .plain "", some .invalidToken)
      | Option.none => (UUID.nil, .plain "", some .invalidToken)
    | _ => (UUID.nil, .plain "", some .invalidToken)

/-- A value stored in the Gin request context by `c.Set` (`interface{}`):
the middleware stores a `uuid.UUID` under "userID" and a `string` under
"role"; `other` stands for any value of a different dynamic type. -/
inductive CtxVal
  | uuid (u : UUID)
  | str (s : GoStr)
  | other
deriving DecidableEq, Repr

/-- The Gin per-request key store, empty at the start of a request. -/
abbrev ReqCtx := List (String × CtxVal)

/-- The `Authorization` header of a request, pre-split on spaces:
`missing` is the empty header, `bearer scheme tok` is a two-part
`"<scheme> <token>"` header, `otherShape` any other number of parts. -/
inductive Header
  | missing
  | bearer (scheme : String) (tok : RawToken)
  | otherShape (parts : List String)
deriving Repr

/-- Outcome of one middleware: either the request was aborted with a status
and error, or it proceeded (`c.Next()`) with the context as updated. -/
inductive MWResult
  | aborted (status : Nat) (err : GoErr)
  | proceeded (ctx : ReqCtx)
deriving DecidableEq, Repr

/-- `middleware.Auth` from `internal/middleware/auth.go`: missing header →
401 `ErrNoToken`; header not exactly `Bearer <token>` → 401
`ErrInvalidTokenFormat`; `validateToken` failure → 401 with that error;
success → set "userID" and "role" in the context and continue. -/
def Auth (secret : String) (now : Int) (header : Header) (ctx : ReqCtx) : MWResult :=
  match header with
  | .missing => .aborted 401 .noToken
  | .otherShape _ => .aborted 401 .invalidTokenFormat
  | .bearer scheme tok =>
    if scheme ≠ "Bearer" then .aborted 401 .invalidTokenFormat
    else
      match validateToken now tok secret with
      | (_, _, some err) => .aborted 401 err
      | (userID, role, Option.none) =>
        .proceeded (("role", .str role) :: ("userID", .uuid userID) :: ctx)

/-- `middleware.RequireRole`: build the allowed set from the configured role
list, then deny 403 `ErrRoleNotFound` when no "role" key is bound, 403
`ErrInvalidRole` when the bound value is not a string, 403
`ErrAccessDenied` when the bound role is outside the set, and continue
otherwise. -/
def RequireRole (roles : List GoStr) (ctx : ReqCtx) : MWResult :=
  match ctx.lookup "role" with
  | Option.none => .aborted 403 .roleNotFound
  | some (.str role) =>
    if roles.contains role then .proceeded ctx
    else .aborted 403 .accessDenied
  | some _ => .aborted 403 .invalidRole

/-- Outcome of a protected route: rejected by a middleware, or handled with
the context the handler observed. -/
inductive RouteOutcome (α : Type)
  | rejected (status : Nat) (err : GoErr)
  | handled (result : α)
deriving DecidableEq, Repr

/-- The middleware chain of a protected item route as wired in
`internal/api/router/router.go`: `Auth` runs first, then `RequireRole`,
then the handler, each later stage only when the earlier called `Next()`. -/
def protectedRoute {α : Type} (secret : String) (now : Int) (roles : List GoStr)
    (handler : ReqCtx → α) (header : Header) : RouteOutcome α :=
  match Auth secret now header [] with
  | .aborted status err => .rejected status err
  | .proceeded ctx =>
    match RequireRole roles ctx with
    | .aborted status err => .rejected status err
    | .proceeded ctx' => .handled (handler ctx')

/-- A bcrypt hash, symbolically: `bcrypt.GenerateFromPassword` embeds a fresh
salt, and `bcrypt.CompareHashAndPassword` succeeds exactly when the
compared password equals the hashed one. -/
structure Hash where
  pw : String
  salt : Nat
deriving DecidableEq, Repr

/-- `hashPassword` from `internal/service/user`: bcrypt with a per-call salt. -/
def hashPassword (salt : Nat) (password : String) : Hash := ⟨password, salt⟩

/-- `verifyPassword`: `bcrypt.CompareHashAndPassword` as a boolean. -/
def verifyPassword (password : String) (hash : Hash) : Bool := hash.pw == password

/-- A row of the `users` table (`model.User`). -/
structure User where
  id : UUID
  username : String
  passwordHash : Hash
  role : GoStr
deriving DecidableEq, Repr

/-- In-memory model of the `users` table; `nextId` models the database's
fresh-UUID generator (`gen_random_uuid()`). -/
structure UserStore where
  users : List User
  nextId : Nat
deriving DecidableEq, Repr

/-- `repository/user.Create`: INSERT returning the generated id. -/
def UserStore.createUser (st : UserStore) (u : User) : UUID × UserStore :=
  let uid : UUID := ⟨st.nextId⟩
  (uid, ⟨st.users ++ [{ u with id := uid }], st.nextId + 1⟩)

/-- `repository/user.GetUserByUsername`: first row matching the username, or
`ErrUserNotFound`. -/
def UserStore.getUserByUsername (st : UserStore) (username : String) :
    Except GoErr User :=
  match st.users.find? (fun u => u.username == username) with
  | some u => .ok u
  | Option.none => .error .userNotFound

/-- `repository/user.CheckUserExistsByUsername`: `SELECT EXISTS(...)`. -/
def UserStore.userExists (st : UserStore) (username : String) : Bool :=
  st.users.any (fun u => u.username == username)

/-- `service/user.Register`: fail with `ErrUserAlreadyExists` when the
username is taken, else hash the password, insert the user and return the
new id. The store is threaded explicitly; `salt` is the salt bcrypt draws
for this call. -/
def Register (st : UserStore) (salt : Nat) (username role password : String) :
    Except GoErr UUID × UserStore :=
  if st.userExists username then (.error .userAlreadyExists, st)
  else
    let hashed := hashPassword salt password
    let user : User := ⟨UUID.nil, username, hashed, .plain role⟩
    let (id, st') := st.createUser user
    (.ok id, st')

/-- `generateToken` from `internal/service/user`: claims built from the user,
HS256-signed with the secret. The Go code reads the clock twice —
`expTime := time.Now().Add(ttl)` and later `"iat": time.Now().Unix()` —
so the embedding takes both readings `t1 ≤ t2` (milliseconds); `Unix()`
truncates to seconds. -/
def generateToken (user : User) (secret : String) (ttl : Nat) (t1 t2 : Nat) : RawToken :=
  let claims : Claims :=
    [("user_id", .str (.uuidStr user.id)),
     ("username", .str (.plain user.username)),
     ("role", .str user.role),
     ("exp", .num (((t1 + ttl) / 1000 : Nat) : Int)),
     ("iat", .num ((t2 / 1000 : Nat) : Int))]
  .valid ⟨.HS256, claims, hmacSign .HS256 secret claims⟩

/-- `service/user.Login`: look the user up by username, collapse
`ErrUserNotFound` into `ErrInvalidCredentials`, wrap other lookup errors,
verify the password (mismatch → `ErrInvalidCredentials`), then issue a
token. `t1 t2` are the two clock readings of `generateToken`. -/
def Login (st : UserStore) (secret : String) (ttl : Nat) (t1 t2 : Nat)
    (username password : String) : Except GoErr RawToken :=
  match st.getUserByUsername username with
  | .error err =>
    if errIs err .userNotFound then .error .invalidCredentials
    else .error (.wrap "get user by username" err)
  | .ok user =>
    if ¬ verifyPassword password user.passwordHash then .error .invalidCredentials
    else .ok (generateToken user secret ttl t1 t2)

/-- An HTTP response body as the auth handlers produce it. -/
inductive RespBody
  | errBody (msg : String)
  | tokenBody (t : RawToken)
  | idBody (u : UUID)
deriving DecidableEq, Repr

/-- A response: status code plus body. -/
structure HTTPResp where
  status : Nat
  body : RespBody
deriving DecidableEq, Repr

/-- `handler/auth.Handler.Register` after binding/validation: map
`ErrUserAlreadyExists` to 409 "user already exists", other errors to 500,
success to 201 with the new id. -/
def HandlerRegister (st : UserStore) (salt : Nat) (username role password : String) :
    HTTPResp × UserStore :=
  match Register st salt username role password with
  | (.error err, st') =>
    if errIs err .userAlreadyExists then
      (⟨409, .errBody "user already exists"⟩, st')
    else (⟨500, .errBody "internal server error"⟩, st')
  | (.ok id, st') => (⟨201, .idBody id⟩, st')

/-- `handler/auth.Handler.Login` after binding/validation: map
`ErrInvalidCredentials` to 401 "invalid credentials", `ErrUserNotFound`
to 404 "user not found" (a branch the service makes unreachable), other
errors to 500, success to 200 with the token. -/
def HandlerLogin (st : UserStore) (secret : String) (ttl : Nat) (t1 t2 : Nat)
    (username password : String) : HTTPResp :=
  match Login st secret ttl t1 t2 username password with
  | .error err =>
    if errIs err .invalidCredentials then ⟨401, .errBody "invalid credentials"⟩
    else if errIs err .userNotFound then ⟨404, .errBody "user not found"⟩
    else ⟨500, .errBody "internal server error"⟩
  | .ok token => ⟨200, .tokenBody token⟩

/-- `decimal.Decimal` prices, abstracted to integers (their arithmetic plays
no role in the audited control flow). -/
abbrev Price := Int

/-- A row of the `items` table (`model.Item`). -/
structure Item where
  id : UUID
  name : String
  description : String
  quantity : Int
  price : Price
deriving DecidableEq, Repr

/-- A command issued to the PostgreSQL session by the item repository:
`setCurrentUser` is the `SELECT set_config('app.current_user_id', …)`
attribution hook; the others are the mutating SQL statements. -/
inductive DBCmd
  | setCurrentUser (uid : UUID)
  | insertItem (name description : String) (quantity : Int) (price : Price)
  | updateItem (id : UUID) (name description : String) (quantity : Int) (price : Price)
  | deleteItem (id : UUID)
deriving DecidableEq, Repr

/-- The items table together with the trace of commands sent to the database
session, in order. -/
structure ItemDB where
  items : List Item
  nextId : Nat
  log : List DBCmd
deriving DecidableEq, Repr

/-- `repository/item.CreateItem`: issue the INSERT and return the generated id. -/
def ItemDB.createItem (db : ItemDB) (item : Item) : UUID × ItemDB :=
  let uid : UUID := ⟨db.nextId⟩
  (uid,
   ⟨db.items ++ [{ item with id := uid }], db.nextId + 1,
    db.log ++ [.insertItem item.name item.description item.quantity item.price]⟩)

/-- `repository/item.UpdateItem`: issue the UPDATE; `ErrItemNotFound` when no
row was affected. -/
def ItemDB.updateItem (db : ItemDB) (item : Item) : Option GoErr × ItemDB :=
  let db' : ItemDB :=
    ⟨db.items.map (fun i => if i.id = item.id then { item with id := i.id } else i),
     db.nextId,
     db.log ++ [.updateItem item.id item.name item.description item.quantity item.price]⟩
  if db.items.any (fun i => i.id == item.id) then (Option.none, db')
  else (some .itemNotFound, db')

/-- `repository/item.DeleteItem`: issue the DELETE; `ErrItemNotFound` when no
row was affected. -/
def ItemDB.deleteItem (db : ItemDB) (itemID : UUID) : Option GoErr × ItemDB :=
  let db' : ItemDB :=
    ⟨db.items.filter (fun i => ¬ i.id == itemID), db.nextId,
     db.log ++ [.deleteItem itemID]⟩
  if db.items.any (fun i => i.id == itemID) then (Option.none, db')
  else (some .itemNotFound, db')

/-- `repository/item.SetCurrentUser`: the audit-attribution hook, issuing
`set_config('app.current_user_id', uid, false)` to the session. It exists
on the repository but the item service never invokes it. -/
def ItemDB.setCurrentUser (db : ItemDB) (userID : UUID) : Option GoErr × ItemDB :=
  (Option.none, ⟨db.items, db.nextId, db.log ++ [.setCurrentUser userID]⟩)

/-- `service/item.Service.Create` from `internal/service/item/service.go`:
builds the model and calls `repository.CreateItem` directly. The service
signature carries no actor id and the method performs no call to
`SetCurrentUser` before the mutation. -/
def ServiceCreate (db : ItemDB) (name description : String) (quantity : Int)
    (price : Price) : Except GoErr UUID × ItemDB :=
  let item : Item := ⟨UUID.nil, name, description, quantity, price⟩
  let (id, db') := db.createItem item
  (.ok id, db')

/-- `service/item.Service.Update`: builds the model and calls
`repository.UpdateItem` directly, wrapping any error; no actor id is
received or propagated. -/
def ServiceUpdate (db : ItemDB) (itemID : UUID) (name description : String)
    (quantity : Int) (price : Price) : Option GoErr × ItemDB :=
  let item : Item := ⟨itemID, name, description, quantity, price⟩
  match db.updateItem item with
  | (some err, db') => (some (.wrap "update item" err), db')
  | (Option.none, db') => (Option.none, db')

/-- `service/item.Service.Delete`: calls `repository.DeleteItem` directly,
wrapping any error; no actor id is received or propagated. -/
def ServiceDelete (db : ItemDB) (itemID : UUID) : Option GoErr × ItemDB :=
  match db.deleteItem itemID with
  | (some err, db') => (some (.wrap "delete item" err), db')
  | (Option.none, db') => (Option.none, db')

/-- Is a session command the attribution hook? -/
def DBCmd.isSetCurrentUser : DBCmd → Bool
  | .setCurrentUser _ => true
  | _ => false

/-- Read a numeric claim out of a raw token (used to state properties of the
`exp` and `iat` claims of issued tokens). -/
def tokenClaimNum (tok : RawToken) (key : String) : Option Int :=
  match tok with
  | .valid t =>
    match t.claims.lookup key with
    | some (.num n) => some n
    | _ => Option.none
  | .garbage _ => Option.none

/-- The concrete items table used to exercise the mutating item operations:
one pre-existing item with id 7, an empty session log. -/
def itemDB0 : ItemDB := ⟨[⟨⟨7⟩, "Widget", "", 1, 5⟩], 8, []⟩

section Helpers

/-- An expired `exp` claim on an otherwise well-signed HMAC token makes
`validateToken` return exactly `ErrExpiredToken` with zero values. -/
theorem validateToken_expired (now : Int) (secret : String) (t : Token) (e : Int)
    (halg : t.alg.isHMAC = true)
    (hsig : t.sig = hmacSign t.alg secret t.claims)
    (hexp : getExp t.claims = some (.num e))
    (hpast : e ≤ now) :
    validateToken now (.valid t) secret = (UUID.nil, .plain "", some .expiredToken) := by
  simp [validateToken, jwtParse, halg, hsig, hexp, hpast, errIs]

/-- If the first list has no hit, `find?` over an append searches the second. -/
theorem find_append_of_none {α : Type} (p : α → Bool) (l1 l2 : List α)
    (h : l1.find? p = Option.none) : (l1 ++ l2).find? p = l2.find? p := by
  induction l1 with
  | nil => simp
  | cons x xs ih =>
    cases hp : p x with
    | true => rw [List.find?_cons_of_pos _ hp] at h; cases h
    | false =>
      rw [List.find?_cons_of_neg _ (by simp [hp])] at h
      rw [List.cons_append, List.find?_cons_of_neg _ (by simp [hp])]
      exact ih h

/-- `userExists = false` means the username lookup finds nothing. -/
theorem find_none_of_not_exists (st : UserStore) (username : String)
    (h : st.userExists username = false) :
    st.users.find? (fun u => u.username == username) = Option.none := by
  rw [List.find?_eq_none]
  intro u hu
  unfold UserStore.userExists at h
  rw [List.any_eq_false] at h
  exact fun hp => h u hu hp

end Helpers

/-- C1: the claim says every mutating item operation communicates the
authenticated actor's id to the persistence session via `SetCurrentUser`
before the mutation, or else fails. Evaluating the item service at
concrete inputs shows `Create`, `Update` and `Delete` each succeed while
issuing only the bare INSERT/UPDATE/DELETE: no `set_config` command ever
reaches the session, so the mutation proceeds without attribution. -/
theorem item_service_mutates_without_actor_propagation :
    (ServiceCreate itemDB0 "Gadget" "d" 2 10).1 = .ok ⟨8⟩ ∧
    (ServiceCreate itemDB0 "Gadget" "d" 2 10).2.log = [.insertItem "Gadget" "d" 2 10] ∧
    ((ServiceCreate itemDB0 "Gadget" "d" 2 10).2.log.any DBCmd.isSetCurrentUser) = false ∧
    (ServiceUpdate itemDB0 ⟨7⟩ "Widget2" "" 3 6).1 = Option.none ∧
    ((ServiceUpdate itemDB0 ⟨7⟩ "Widget2" "" 3 6).2.log.any DBCmd.isSetCurrentUser) = false ∧
    (ServiceDelete itemDB0 ⟨7⟩).1 = Option.none ∧
    ((ServiceDelete itemDB0 ⟨7⟩).2.log.any DBCmd.isSetCurrentUser) = false :=
  ⟨rfl, rfl, rfl, rfl, rfl, rfl, rfl⟩

/-- C2: a token whose `exp` has passed but whose HMAC signature verifies
under the server secret is always reported as `ErrExpiredToken` — never
as the generic `ErrInvalidToken` and never accepted — regardless of the
other claims it carries. -/
theorem expired_token_reported_as_expired (now : Int) (secret : String)
    (t : Token) (e : Int)
    (halg : t.alg.isHMAC = true)
    (hsig : t.sig = hmacSign t.alg secret t.claims)
    (hexp : getExp t.claims = some (.num e))
    (hpast : e ≤ now) :
    validateToken now (.valid t) secret = (UUID.nil, .plain "", some .expiredToken) :=
  validateToken_expired now secret t e halg hsig hexp hpast

/-- Witness for C2 at a concrete expired token. -/
theorem expired_token_reported_as_expired_witness :
    validateToken 5 (.valid ⟨.HS256, [("exp", .num 0)], hmacSign .HS256 "s" [("exp", .num 0)]⟩) "s"
      = (UUID.nil, .plain "", some .expiredToken) :=
  expired_token_reported_as_expired 5 "s"
    ⟨.HS256, [("exp", .num 0)], hmacSign .HS256 "s" [("exp", .num 0)]⟩ 0
    rfl rfl rfl (by decide)

/-- C3: the role gate, for any permitted-role set: an unbound role is denied
403 `ErrRoleNotFound`; a bound role outside the set is denied 403
`ErrAccessDenied`, membership being the only criterion (no admin
exception); a bound role inside the set proceeds unchanged. -/
theorem role_gate_membership_decides (roles : List GoStr) (ctx : ReqCtx) :
    (ctx.lookup "role" = Option.none →
       RequireRole roles ctx = .aborted 403 .roleNotFound) ∧
    (∀ r : GoStr, ctx.lookup "role" = some (.str r) → roles.contains r = false →
       RequireRole roles ctx = .aborted 403 .accessDenied) ∧
    (∀ r : GoStr, ctx.lookup "role" = some (.str r) → roles.contains r = true →
       RequireRole roles ctx = .proceeded ctx) :=
  ⟨fun h => by simp [RequireRole, h],
   fun r h hc => by simp [RequireRole, h, hc]; simpa using hc,
   fun r h hc => by simp [RequireRole, h, hc]; simpa using hc⟩

/-- Witness for C3: on a manager-only gate, an absent role is 403
role-not-found, role "admin" (not in the set) is 403 access-denied, and
role "manager" proceeds. -/
theorem role_gate_membership_decides_witness :
    RequireRole [.plain "manager"] [] = .aborted 403 .roleNotFound ∧
    RequireRole [.plain "manager"] [("role", .str (.plain "admin"))]
      = .aborted 403 .accessDenied ∧
    RequireRole [.plain "manager"] [("role", .str (.plain "manager"))]
      = .proceeded [("role", .str (.plain "manager"))] :=
  ⟨(role_gate_membership_decides [.plain "manager"] []).1 rfl,
   (role_gate_membership_decides [.plain "manager"] [("role", .str (.plain "admin"))]).2.1
     (.plain "admin") rfl (by decide),
   (role_gate_membership_decides [.plain "manager"] [("role", .str (.plain "manager"))]).2.2
     (.plain "manager") rfl (by decide)⟩

/-- C4: a token signed under a different secret, or carrying a non-HMAC
algorithm (including "none" and asymmetric substitution), is always
rejected by `validateToken`, whatever its claims. -/
theorem forged_or_nonhmac_token_rejected (now : Int) (secret : String) (t : Token)
    (h : t.alg.isHMAC = false ∨
         ∃ secret', secret' ≠ secret ∧ t.sig = hmacSign t.alg secret' t.claims) :
    (validateToken now (.valid t) secret).2.2.isSome = true := by
  rcases h with halg | ⟨secret', hne, hsig⟩
  · simp [validateToken, jwtParse, halg, errIs]
  · have hneq : t.sig ≠ hmacSign t.alg secret t.claims := by
      rw [hsig]
      intro hk
      exact hne (congrArg Sig.key hk)
    cases halg : t.alg.isHMAC with
    | false => simp [validateToken, jwtParse, halg, errIs]
    | true => simp [validateToken, jwtParse, halg, hneq, errIs]

/-- Witness for C4: an unexpired, well-typed token signed under secret "x" is
rejected when verified under secret "s". -/
theorem forged_or_nonhmac_token_rejected_witness :
    (validateToken 0
      (.valid ⟨.HS256,
        [("user_id", .str (.uuidStr ⟨1⟩)), ("role", .str (.plain "admin"))],
        hmacSign .HS256 "x"
          [("user_id", .str (.uuidStr ⟨1⟩)), ("role", .str (.plain "admin"))]⟩)
      "s").2.2.isSome = true :=
  forged_or_nonhmac_token_rejected 0 "s"
    ⟨.HS256,
      [("user_id", .str (.uuidStr ⟨1⟩)), ("role", .str (.plain "admin"))],
      hmacSign .HS256 "x"
        [("user_id", .str (.uuidStr ⟨1⟩)), ("role", .str (.plain "admin"))]⟩
    (Or.inr ⟨"x", by decide, rfl⟩)

/-- Well-typedness of the identity claims as `validateToken` requires them:
a string `user_id` that parses as a UUID, and a string `role`. -/
def claimsWellTyped (claims : Claims) : Bool :=
  (match claims.lookup "user_id" with
   | some (.str s) => (uuidParse s).isSome
   | _ => false) &&
  (match claims.lookup "role" with
   | some (.str _) => true
   | _ => false)

/-- C9 counterexample: token issued with TTL 1000 ms (= 1 s) when the first
`time.Now()` read 500 ms and the second 1500 ms. The `exp` claim is
(500+1000)/1000 = 1 and the `iat` claim is 1500/1000 = 1, so
`exp = iat + TTL` fails: `exp` is computed from an earlier clock reading
than `iat`. -/
theorem token_exp_iat_counterexample :
    tokenClaimNum (generateToken ⟨⟨1⟩, "alice", ⟨"pw", 0⟩, .plain "admin"⟩ "s" 1000 500 1500)
        "exp" = some 1 ∧
    tokenClaimNum (generateToken ⟨⟨1⟩, "alice", ⟨"pw", 0⟩, .plain "admin"⟩ "s" 1000 500 1500)
        "iat" = some 1 ∧
    tokenClaimNum (generateToken ⟨⟨1⟩, "alice", ⟨"pw", 0⟩, .plain "admin"⟩ "s" 1000 500 1500)
        "exp" ≠ some (1 + (1000 / 1000 : Nat)) :=
  ⟨rfl, rfl, by decide⟩

/-- C9 amended: `exp` equals the first clock reading plus TTL, `iat` comes
from a second reading; when the two `time.Now()` calls observe the same
instant and the TTL is a whole number of seconds (TTL = 1000·k ms), the
spec equation `exp = iat + TTL` does hold. -/
theorem token_exp_eq_iat_plus_ttl_same_instant
    (user : User) (secret : String) (ttl t k : Nat)
    (hwhole : ttl = 1000 * k) :
    tokenClaimNum (generateToken user secret ttl t t) "exp" =
      (tokenClaimNum (generateToken user secret ttl t t) "iat").map
        (fun n => n + (k : Int)) := by
  subst hwhole
  have hdiv : (t + 1000 * k) / 1000 = t / 1000 + k := by omega
  simp [tokenClaimNum, generateToken, hdiv, List.lookup]

/-- Witness for the amended C9 at a concrete issuance. -/
theorem token_exp_eq_iat_plus_ttl_same_instant_witness :
    tokenClaimNum (generateToken ⟨⟨1⟩, "alice", ⟨"pw", 0⟩, .plain "admin"⟩ "s" 1000 700 700)
        "exp" =
      (tokenClaimNum (generateToken ⟨⟨1⟩, "alice", ⟨"pw", 0⟩, .plain "admin"⟩ "s" 1000 700 700)
          "iat").map (fun n => n + (1 : Int)) :=
  token_exp_eq_iat_plus_ttl_same_instant ⟨⟨1⟩, "alice", ⟨"pw", 0⟩, .plain "admin"⟩
    "s" 1000 700 1 rfl

/-- C10: on a token that parses and verifies, identity claims that are not
well typed (missing/non-string/non-UUID `user_id`, or missing/non-string
`role`) make `validateToken` return `ErrInvalidToken` with the nil UUID
and empty role; conversely every success carries a parsed UUID actor id
and a string role read from the claims. -/
theorem bad_identity_claims_rejected (now : Int) (secret : String)
    (raw : RawToken) (t : Token)
    (hok : jwtParse now secret raw = .ok t) :
    (claimsWellTyped t.claims = false →
       validateToken now raw secret = (UUID.nil, .plain "", some .invalidToken)) ∧
    (∀ uid role, validateToken now raw secret = (uid, role, Option.none) →
       t.claims.lookup "user_id" = some (.str (.uuidStr uid)) ∧
       t.claims.lookup "role" = some (.str role)) := by
  have hval : validateToken now raw secret =
      (match t.claims.lookup "user_id" with
       | some (.str userIDStr) =>
         match uuidParse userIDStr with
         | some userID =>
           match t.claims.lookup "role" with
           | some (.str role) => (userID, role, Option.none)
           | _ => (UUID.nil, .plain "", some .invalidToken)
         | Option.none => (UUID.nil, .plain "", some .invalidToken)
       | _ => (UUID.nil, .plain "", some .invalidToken)) := by
    unfold validateToken
    rw [hok]
  constructor
  · intro hbad
    rw [hval]
    unfold claimsWellTyped at hbad
    cases h1 : t.claims.lookup "user_id" with
    | none => simp [h1]
    | some v =>
      cases v with
      | str s =>
        cases hu : uuidParse s with
        | none => simp [h1, hu]
        | some uid =>
          cases h2 : t.claims.lookup "role" with
          | none => simp [h1, hu, h2]
          | some w =>
            cases w with
            | str r => simp [h1, hu, h2] at hbad
            | num n => simp [h1, hu, h2]
            | boolean b => simp [h1, hu, h2]
            | null => simp [h1, hu, h2]
      | num n => simp [h1]
      | boolean b => simp [h1]
      | null => simp [h1]
  · intro uid role hsucc
    rw [hval] at hsucc
    cases h1 : t.claims.lookup "user_id" with
    | none => simp [h1] at hsucc
    | some v =>
      cases v with
      | str s =>
        cases hu : uuidParse s with
        | none => simp [h1, hu] at hsucc
        | some uid' =>
          cases h2 : t.claims.lookup "role" with
          | none => simp [h1, hu, h2] at hsucc
          | some w =>
            cases w with
            | str r =>
              simp [h1, hu, h2] at hsucc
              obtain ⟨ha, hb⟩ := hsucc
              cases s with
              | uuidStr u =>
                simp [uuidParse] at hu
                subst hu ha hb
                exact ⟨rfl, rfl⟩
              | plain s' => simp [uuidParse] at hu
            | num n => simp [h1, hu, h2] at hsucc
            | boolean b => simp [h1, hu, h2] at hsucc
            | null => simp [h1, hu, h2] at hsucc
      | num n => simp [h1] at hsucc
      | boolean b => simp [h1] at hsucc
      | null => simp [h1] at hsucc

/-- Witness for C10: a well-signed, unexpired token with no `user_id` claim
is rejected with the invalid-token error and zero values. -/
theorem bad_identity_claims_rejected_witness :
    validateToken 0
        (.valid ⟨.HS256, [("role", .str (.plain "admin"))],
          hmacSign .HS256 "s" [("role", .str (.plain "admin"))]⟩) "s"
      = (UUID.nil, .plain "", some .invalidToken) :=
  (bad_identity_claims_rejected 0 "s"
      (.valid ⟨.HS256, [("role", .str (.plain "admin"))],
        hmacSign .HS256 "s" [("role", .str (.plain "admin"))]⟩)
      ⟨.HS256, [("role", .str (.plain "admin"))],
        hmacSign .HS256 "s" [("role", .str (.plain "admin"))]⟩
      rfl).1 rfl

/-- C7: per request the auth middleware is atomic — it either aborts with 401
binding nothing, or token verification fully succeeded and it binds both
"userID" and "role" — and a request bearing an expired (but well-signed)
token is rejected 401 `ErrExpiredToken` by the middleware itself: the
whole protected route evaluates to that rejection for every role-gate
configuration and every handler, so neither ever runs. -/
theorem auth_binding_atomic_and_expired_stops_early
    (secret : String) (now : Int) (header : Header) :
    ((∃ err, Auth secret now header [] = .aborted 401 err) ∨
     (∃ tok uid role,
        header = .bearer "Bearer" tok ∧
        validateToken now tok secret = (uid, role, Option.none) ∧
        Auth secret now header [] =
          .proceeded [("role", .str role), ("userID", .uuid uid)])) ∧
    (∀ (α : Type) (roles : List GoStr) (handler : ReqCtx → α) (t : Token) (e : Int),
       header = .bearer "Bearer" (.valid t) →
       t.alg.isHMAC = true →
       t.sig = hmacSign t.alg secret t.claims →
       getExp t.claims = some (.num e) →
       e ≤ now →
       protectedRoute secret now roles handler header = .rejected 401 .expiredToken) := by
  constructor
  · cases header with
    | missing => exact Or.inl ⟨.noToken, rfl⟩
    | otherShape parts => exact Or.inl ⟨.invalidTokenFormat, rfl⟩
    | bearer scheme tok =>
      by_cases hs : scheme = "Bearer"
      · subst hs
        rcases hv : validateToken now tok secret with ⟨uid, role, err?⟩
        cases err? with
        | none => exact Or.inr ⟨tok, uid, role, rfl, hv, by simp [Auth, hv]⟩
        | some e => exact Or.inl ⟨e, by simp [Auth, hv]⟩
      · exact Or.inl ⟨.invalidTokenFormat, by simp [Auth, hs]⟩
  · intro α roles handler t e hh halg hsig hexp hpast
    subst hh
    have hv := validateToken_expired now secret t e halg hsig hexp hpast
    simp [protectedRoute, Auth, hv]

/-- Witness for C7: a concrete expired token on a manager-gated route is
rejected 401 expired without the gate or handler running. -/
theorem auth_binding_atomic_and_expired_stops_early_witness :
    protectedRoute "s" 5 [.plain "manager"] (fun ctx => ctx)
        (.bearer "Bearer" (.valid ⟨.HS256,
          [("user_id", .str (.uuidStr ⟨1⟩)), ("role", .str (.plain "manager")),
           ("exp", .num 0)],
          hmacSign .HS256 "s"
            [("user_id", .str (.uuidStr ⟨1⟩)), ("role", .str (.plain "manager")),
             ("exp", .num 0)]⟩))
      = .rejected 401 .expiredToken :=
  (auth_binding_atomic_and_expired_stops_early "s" 5
      (.bearer "Bearer" (.valid ⟨.HS256,
        [("user_id", .str (.uuidStr ⟨1⟩)), ("role", .str (.plain "manager")),
         ("exp", .num 0)],
        hmacSign .HS256 "s"
          [("user_id", .str (.uuidStr ⟨1⟩)), ("role", .str (.plain "manager")),
           ("exp", .num 0)]⟩))).2
    ReqCtx [.plain "manager"] (fun ctx => ctx) _ 0 rfl rfl rfl rfl (by decide)

/-- C6: the outward login responses for a non-existent username and for an
existing username with a wrong password coincide: both are 401 with the
generic "invalid credentials" body, so the pair of runs is
indistinguishable with respect to username existence. -/
theorem login_unknown_user_indistinguishable_from_wrong_password
    (st : UserStore) (secret : String) (ttl t1 t2 : Nat) (u1 p1 u2 p2 : String)
    (h1 : st.getUserByUsername u1 = .error .userNotFound)
    (h2 : ∃ user, st.getUserByUsername u2 = .ok user ∧
            verifyPassword p2 user.passwordHash = false) :
    HandlerLogin st secret ttl t1 t2 u1 p1 = ⟨401, .errBody "invalid credentials"⟩ ∧
    HandlerLogin st secret ttl t1 t2 u2 p2 = ⟨401, .errBody "invalid credentials"⟩ := by
  obtain ⟨user, hu, hpw⟩ := h2
  constructor
  · simp [HandlerLogin, Login, h1, errIs]
  · simp [HandlerLogin, Login, hu, hpw, errIs]

/-- Witness for C6: store with only "alice"; login("bob", "pw1") and
login("alice", "wrong") both produce 401 "invalid credentials". -/
theorem login_unknown_user_indistinguishable_from_wrong_password_witness :
    HandlerLogin ⟨[⟨⟨1⟩, "alice", ⟨"pw1", 0⟩, .plain "admin"⟩], 2⟩ "s" 1000 0 0
        "bob" "pw1" = ⟨401, .errBody "invalid credentials"⟩ ∧
    HandlerLogin ⟨[⟨⟨1⟩, "alice", ⟨"pw1", 0⟩, .plain "admin"⟩], 2⟩ "s" 1000 0 0
        "alice" "wrong" = ⟨401, .errBody "invalid credentials"⟩ :=
  login_unknown_user_indistinguishable_from_wrong_password
    ⟨[⟨⟨1⟩, "alice", ⟨"pw1", 0⟩, .plain "admin"⟩], 2⟩ "s" 1000 0 0
    "bob" "pw1" "alice" "wrong" rfl
    ⟨⟨⟨1⟩, "alice", ⟨"pw1", 0⟩, .plain "admin"⟩, rfl, by decide⟩

/-- C8: registration with a taken username fails with the conflict error,
surfaced as 409, and leaves the credential store untouched; with a free
username it hashes the password, appends exactly one new credential and
returns its freshly assigned id, surfaced as 201. -/
theorem register_conflict_or_creates
    (st : UserStore) (salt : Nat) (username role password : String) :
    (st.userExists username = true →
       Register st salt username role password = (.error .userAlreadyExists, st) ∧
       HandlerRegister st salt username role password =
         (⟨409, .errBody "user already exists"⟩, st)) ∧
    (st.userExists username = false →
       Register st salt username role password =
         (.ok ⟨st.nextId⟩,
          ⟨st.users ++ [⟨⟨st.nextId⟩, username, hashPassword salt password, .plain role⟩],
           st.nextId + 1⟩) ∧
       HandlerRegister st salt username role password =
         (⟨201, .idBody ⟨st.nextId⟩⟩,
          ⟨st.users ++ [⟨⟨st.nextId⟩, username, hashPassword salt password, .plain role⟩],
           st.nextId + 1⟩)) := by
  constructor
  · intro hex
    refine ⟨by simp [Register, hex], ?_⟩
    simp [HandlerRegister, Register, hex, errIs]
  · intro hfree
    refine ⟨by simp [Register, hfree, UserStore.createUser, hashPassword], ?_⟩
    simp [HandlerRegister, Register, hfree, UserStore.createUser, hashPassword]

/-- Witness for C8 (scenario A): registering "alice" again conflicts with 409
and changes nothing; registering "bob" appends the new credential. -/
theorem register_conflict_or_creates_witness :
    (Register ⟨[⟨⟨1⟩, "alice", ⟨"pw1", 0⟩, .plain "admin"⟩], 2⟩ 3 "alice" "viewer" "pw2"
       = (.error .userAlreadyExists, ⟨[⟨⟨1⟩, "alice", ⟨"pw1", 0⟩, .plain "admin"⟩], 2⟩) ∧
     HandlerRegister ⟨[⟨⟨1⟩, "alice", ⟨"pw1", 0⟩, .plain "admin"⟩], 2⟩ 3 "alice" "viewer" "pw2"
       = (⟨409, .errBody "user already exists"⟩,
          ⟨[⟨⟨1⟩, "alice", ⟨"pw1", 0⟩, .plain "admin"⟩], 2⟩)) ∧
    (Register ⟨[⟨⟨1⟩, "alice", ⟨"pw1", 0⟩, .plain "admin"⟩], 2⟩ 3 "bob" "viewer" "pw2"
       = (.ok ⟨2⟩,
          ⟨[⟨⟨1⟩, "alice", ⟨"pw1", 0⟩, .plain "admin"⟩,
            ⟨⟨2⟩, "bob", hashPassword 3 "pw2", .plain "viewer"⟩], 3⟩)) :=
  ⟨(register_conflict_or_creates ⟨[⟨⟨1⟩, "alice", ⟨"pw1", 0⟩, .plain "admin"⟩], 2⟩
      3 "alice" "viewer" "pw2").1 (by decide),
   ((register_conflict_or_creates ⟨[⟨⟨1⟩, "alice", ⟨"pw1", 0⟩, .plain "admin"⟩], 2⟩
      3 "bob" "viewer" "pw2").2 (by decide)).1⟩

/-- Verifying a freshly issued token before its expiry recovers the issuing
user's id and role. -/
theorem validateToken_generateToken (user : User) (secret : String)
    (ttl t1 t2 : Nat) (nowv : Int)
    (hfresh : nowv < (((t1 + ttl) / 1000 : Nat) : Int)) :
    validateToken nowv (generateToken user secret ttl t1 t2) secret
      = (user.id, user.role, Option.none) := by
  have hne : ¬ ((((t1 : Int) + (ttl : Int)) / 1000) ≤ nowv) := by
    push_cast at hfresh
    exact not_le.mpr hfresh
  simp [validateToken, jwtParse, generateToken, getExp, hmacSign, uuidParse,
    Alg.isHMAC, List.lookup, hne, errIs]

/-- C5: registering a credential once and then logging in with the same
username and password yields a token that, verified immediately (before
the TTL elapses) under the same secret, returns exactly the id the
registration assigned and the role that was registered. -/
theorem register_login_verify_roundtrip
    (st : UserStore) (salt : Nat) (username role password secret : String)
    (ttl t1 t2 : Nat) (nowv : Int)
    (hfree : st.userExists username = false)
    (hfresh : nowv < (((t1 + ttl) / 1000 : Nat) : Int)) :
    ∃ (id : UUID) (st' : UserStore) (tok : RawToken),
      Register st salt username role password = (.ok id, st') ∧
      Login st' secret ttl t1 t2 username password = .ok tok ∧
      validateToken nowv tok secret = (id, .plain role, Option.none) := by
  refine ⟨⟨st.nextId⟩,
    ⟨st.users ++ [⟨⟨st.nextId⟩, username, hashPassword salt password, .plain role⟩],
     st.nextId + 1⟩,
    generateToken ⟨⟨st.nextId⟩, username, hashPassword salt password, .plain role⟩
      secret ttl t1 t2, ?_, ?_, ?_⟩
  · simp [Register, hfree, UserStore.createUser, hashPassword]
  · have hnone := find_none_of_not_exists st username hfree
    simp [Login, UserStore.getUserByUsername, hnone, verifyPassword, hashPassword, errIs]
  · exact validateToken_generateToken
      ⟨⟨st.nextId⟩, username, hashPassword salt password, .plain role⟩
      secret ttl t1 t2 nowv hfresh

/-- Witness for C5 at a concrete registration and login. -/
theorem register_login_verify_roundtrip_witness :
    ∃ (id : UUID) (st' : UserStore) (tok : RawToken),
      Register ⟨[], 1⟩ 0 "alice" "admin" "pw1" = (.ok id, st') ∧
      Login st' "s" 1000 0 0 "alice" "pw1" = .ok tok ∧
      validateToken 0 tok "s" = (id, .plain "admin", Option.none) :=
  register_login_verify_roundtrip ⟨[], 1⟩ 0 "alice" "admin" "pw1" "s" 1000 0 0 0
    rfl (by decide)

end Warehouse
